import Mathlib

/-!
Verification of the trucks-front route-planning front end.

The development shallowly embeds the core logic of the repository:
the geometry normalizer `toLatLngs` (src/App.tsx), the detour segment
classifier of `MapView`, the stop deduplicator of `onSubmit`, the
request reconciler of `onSubmit` (token minting, abort, staleness
check), and the HTTP error surfacing of the api module.

JavaScript values flowing through the untyped parts of the code are
modelled by the inductive `JVal` (numbers as rationals, strings,
arrays, null); machine floating point is idealized as exact rational
arithmetic, which is faithful for the structural properties proved
here.  Fallible code paths (a JS `throw`) are modelled with `Option`
or `Except`.
-/

set_option maxHeartbeats 1000000

namespace TrucksFront

/-- A JSON-ish JavaScript value: number, string, array or null. -/
inductive JVal where
  | num (x : ℚ)
  | str (s : String)
  | arr (elems : List JVal)
  | null

/-- `Array.isArray`. -/
def JVal.isArr : JVal → Bool
  | .arr _ => true
  | _ => false

/-- Indexing `v[i]`; out of range or non-array yields a non-array
non-number value (JS `undefined`, merged with `null` here: the code
only ever asks `Array.isArray`/`typeof === 'number'` of the result). -/
def jIndex : JVal → Nat → JVal
  | .arr es, i => es.getD i .null
  | _, _ => .null

/-- `v.length` for arrays (only consulted after an `Array.isArray` guard). -/
def jLen : JVal → Nat
  | .arr es => es.length
  | _ => 0

/-- JS truthiness for the values of `JVal`. -/
def jTruthy : JVal → Bool
  | .num x => decide (x ≠ 0)
  | .str s => !s.isEmpty
  | .arr _ => true
  | .null => false

/-- The point filter of `toLatLngs`: `Array.isArray(pt) && pt.length >= 2`. -/
def ptOk (pt : JVal) : Bool := pt.isArr && decide (2 ≤ jLen pt)

/-- The axis swap of `toLatLngs`: `([lon, lat]) => [lat, lon]`,
reading the first two components of the point. -/
def swapPt (pt : JVal) : JVal × JVal := (jIndex pt 1, jIndex pt 0)

/-- One line of a multi-part geometry, as collected by the inner loop of
`toLatLngs`: non-array lines contribute nothing, array lines contribute
their points that pass `ptOk`. -/
def lineFlat (line : JVal) : List JVal :=
  match line with
  | .arr pts => pts.filter ptOk
  | _ => []

/-- The `flat` accumulator of `toLatLngs` for the nested (multi-line) case. -/
def nestedFlat (lines : List JVal) : List JVal :=
  match lines with
  | [] => []
  | l :: rest => lineFlat l ++ nestedFlat rest

/-- The geometry object of a plan-route response: `{ type?, coordinates? }`. -/
structure Geometry where
  gtype : Option JVal
  coordinates : Option JVal

/-- `toLatLngs` from src/App.tsx.  `none` as the result models the JS
`TypeError` thrown when `coords.filter` is called on a truthy
non-array `coordinates` value; all paths reachable from well-formed
`GeometryPayload`s return `some`. -/
def toLatLngs (geometry : Option Geometry) : Option (List (JVal × JVal)) :=
  match geometry with
  | none => some []
  | some g =>
    match g.coordinates with
    | none => some []
    | some coords =>
      if !(jTruthy coords) then some []
      else if (jIndex coords 0).isArr && (jIndex (jIndex coords 0) 0).isArr then
        match coords with
        | .arr lines => some ((nestedFlat lines).map swapPt)
        | _ => some []
      else
        match coords with
        | .arr pts => some ((pts.filter ptOk).map swapPt)
        | _ => none

/-- Spec side: a point with at least two components that are numbers.
The specification claims `normalize` keeps exactly these points. -/
def specNumericPoint (pt : JVal) : Bool :=
  pt.isArr && decide (2 ≤ jLen pt) &&
    (match jIndex pt 0 with | .num _ => true | _ => false) &&
    (match jIndex pt 1 with | .num _ => true | _ => false)

/-- Spec side: the source points actually kept by the code, described
independently of the code's loop structure — after the nesting
dispatch, the points (of all array lines, concatenated, for the nested
form) that are arrays of length at least 2.  Numericity of the
components is not part of the filter. -/
def specKeptPoints (coords : JVal) : List JVal :=
  match coords with
  | .arr elems =>
    if (jIndex coords 0).isArr && (jIndex (jIndex coords 0) 0).isArr then
      ((elems.filterMap (fun l => match l with | .arr pts => some pts | _ => none)).flatten).filter ptOk
    else
      elems.filter ptOk
  | _ => []

/-! ## Segment classifier (MapView) -/

/-- A `LatLng` of `MapView`: a pair of (idealized) numbers. -/
def Pt : Type := ℚ × ℚ

instance : DecidableEq Pt := instDecidableEqProd

/-- `dist2` of MapView: squared planar distance, `dx*dx + dy*dy`. -/
def dist2 (a b : Pt) : ℚ :=
  (a.1 - b.1) * (a.1 - b.1) + (a.2 - b.2) * (a.2 - b.2)

/-- The running minimum of `minDist2ToBase`'s loop, after the first
base point initialized `best`. -/
def minD2Aux (p : Pt) (base : List Pt) (best : ℚ) : ℚ :=
  match base with
  | [] => best
  | q :: rest => minD2Aux p rest (if dist2 p q < best then dist2 p q else best)

/-- `minDist2ToBase` of MapView.  `none` models the
`Number.POSITIVE_INFINITY` returned for an empty base (the guard of the
classification loop makes the base nonempty, so the first iteration
always replaces infinity by `dist2 p base[0]`). -/
def minDist2ToBase (base : List Pt) (p : Pt) : Option ℚ :=
  match base with
  | [] => none
  | q :: rest => some (minD2Aux p rest (dist2 p q))

/-- `GREEN_THRESHOLD_DEG2 = 0.0005 * 0.0005` of MapView. -/
def GREEN_THRESHOLD_DEG2 : ℚ := (5 / 10000) * (5 / 10000)

/-- The `near` test of the classification loop:
`minDist2ToBase(pt) <= GREEN_THRESHOLD_DEG2` (infinity is never near). -/
def isNearBase (base : List Pt) (p : Pt) : Bool :=
  match minDist2ToBase base p with
  | none => false
  | some d => decide (d ≤ GREEN_THRESHOLD_DEG2)

/-- The classification loop of MapView over the remaining detour
points, carrying the previous point, the current run, the current
run's classification and the two segment accumulators
(`greenSegments`, `redSegments`), including the final flush. -/
def classifyGo (f : Pt → Bool) (rest : List Pt) (prev : Pt) (cur : List Pt)
    (cg : Bool) (g r : List (List Pt)) : List (List Pt) × List (List Pt) :=
  match rest with
  | [] =>
    if 1 < cur.length then
      if cg then (g ++ [cur], r) else (g, r ++ [cur])
    else (g, r)
  | pt :: rest' =>
    if f pt = cg then
      classifyGo f rest' pt (cur ++ [pt]) cg g r
    else if 1 < cur.length then
      if cg then classifyGo f rest' pt [prev, pt] (f pt) (g ++ [cur]) r
      else classifyGo f rest' pt [prev, pt] (f pt) g (r ++ [cur])
    else
      classifyGo f rest' pt [prev, pt] (f pt) g r

/-- The segment classification of MapView: guards
`baseRoute.length > 1` and `route.length > 1` (otherwise no
classification is attempted), then runs the loop from the first detour
point. Returns `(greenSegments, redSegments)`. -/
def classify (baseRoute route : List Pt) : List (List Pt) × List (List Pt) :=
  if 1 < baseRoute.length ∧ 1 < route.length then
    match route with
    | [] => ([], [])
    | p0 :: rest =>
      classifyGo (isNearBase baseRoute) rest p0 [p0] (isNearBase baseRoute p0) [] []
  else ([], [])

/-- The same loop, recording the emitted runs as one ordered list
tagged with their classification, in order of occurrence along the
detour.  Used to state boundary-sharing and coverage properties of
`classify`; `classify` is proved to be its pair of projections. -/
def runsGo (f : Pt → Bool) (rest : List Pt) (prev : Pt) (cur : List Pt)
    (cg : Bool) : List (Bool × List Pt) :=
  match rest with
  | [] => if 1 < cur.length then [(cg, cur)] else []
  | pt :: rest' =>
    if f pt = cg then
      runsGo f rest' pt (cur ++ [pt]) cg
    else if 1 < cur.length then
      (cg, cur) :: runsGo f rest' pt [prev, pt] (f pt)
    else
      runsGo f rest' pt [prev, pt] (f pt)

/-- The ordered emitted runs of the classification of `route` against
`baseRoute`. -/
def runsOf (baseRoute route : List Pt) : List (Bool × List Pt) :=
  if 1 < baseRoute.length ∧ 1 < route.length then
    match route with
    | [] => []
    | p0 :: rest =>
      runsGo (isNearBase baseRoute) rest p0 [p0] (isNearBase baseRoute p0)
  else []

/-- Projection keeping the on-route (green) runs. -/
def grnProj (q : Bool × List Pt) : Option (List Pt) :=
  if q.1 then some q.2 else none

/-- Projection keeping the detour (red) runs. -/
def redProj (q : Bool × List Pt) : Option (List Pt) :=
  if q.1 then none else some q.2

/-- Relation between adjacent emitted runs: opposite classification and
a shared boundary point (the last point of the earlier run is the
first point of the later run). -/
def runR (a b : Bool × List Pt) : Prop :=
  a.1 ≠ b.1 ∧ a.2.getLast? = b.2.head?

/-- Concatenate segments dropping the duplicated shared boundary point
at each junction: the first segment whole, each later segment without
its first point. -/
def glue : List (List Pt) → List Pt
  | [] => []
  | s :: ss => s ++ (ss.map (List.drop 1)).flatten

/-! ## Stop records and deduplication (onSubmit) -/

/-- A raw stop entry of a plan-route response, restricted to the
fields the mapping code reads; each field is an arbitrary JS value or
absent. -/
structure RawStop where
  station_id : Option JVal
  lat : Option JVal
  lon : Option JVal
  coord : Option JVal
  name : Option JVal
  city : Option JVal
  state : Option JVal
  price : Option JVal
  address : Option JVal
  gallons_purchased : Option JVal
  cost : Option JVal
  mile_on_route : Option JVal

/-- `StopPoint` as built by `onSubmit`: numeric fields are
number-or-undefined after the `typeof === 'number'` guards; `lat`/`lon`
may also carry an arbitrary value taken from `coord[1]`/`coord[0]`. -/
structure StopPoint where
  station_id : Option ℚ
  lat : Option JVal
  lon : Option JVal
  name : Option JVal
  city : Option JVal
  state : Option JVal
  price : Option ℚ
  address : Option JVal
  gallons_purchased : Option ℚ
  cost : Option ℚ
  mile_on_route : Option ℚ

/-- `typeof v === 'number' ? v : undefined`. -/
def jNumVal : Option JVal → Option ℚ
  | some (.num x) => some x
  | _ => none

/-- `Array.isArray(coord) ? coord[i] : undefined`. -/
def coordAt (c : Option JVal) (i : Nat) : Option JVal :=
  match c with
  | some v => if v.isArr then some (jIndex v i) else none
  | none => none

/-- The per-stop mapping of `onSubmit` (lines 87–99 of App.tsx). -/
def mapStop (s : RawStop) : StopPoint :=
  { station_id := jNumVal s.station_id
  , lat := match jNumVal s.lat with
           | some x => some (.num x)
           | none => coordAt s.coord 1
  , lon := match jNumVal s.lon with
           | some x => some (.num x)
           | none => coordAt s.coord 0
  , name := s.name
  , city := s.city
  , state := s.state
  , price := jNumVal s.price
  , address := s.address
  , gallons_purchased := jNumVal s.gallons_purchased
  , cost := jNumVal s.cost
  , mile_on_route := jNumVal s.mile_on_route }

/-- The deduplication key of `onSubmit`: `"id:" + station_id` for
numeric ids, otherwise `"ll:" + lat.toFixed(6) + "," + lon.toFixed(6)`
with `''` for an absent or non-number coordinate.  The two string
shapes never collide, and within each shape string equality coincides
with equality of the modelled data, so the key is modelled as an
inductive with decidable equality. -/
inductive StopKey where
  | idKey (n : ℚ)
  | llKey (lat lon : Option Int)
deriving DecidableEq

/-- `v?.toFixed?.(6) ?? ''`: rounding to six decimal places for
numbers, the empty-string marker (`none`) otherwise. -/
def fix6 (v : Option JVal) : Option Int :=
  match v with
  | some (.num x) => some (round (x * 1000000))
  | _ => none

/-- The key of a `StopPoint`. -/
def stopKey (s : StopPoint) : StopKey :=
  match s.station_id with
  | some n => .idKey n
  | none => .llKey (fix6 s.lat) (fix6 s.lon)

/-- The deduplication loop of `onSubmit`, carrying the `seen` key set. -/
def dedupeGo : List StopPoint → List StopKey → List StopPoint
  | [], _ => []
  | s :: rest, seen =>
    if stopKey s ∈ seen then dedupeGo rest seen
    else s :: dedupeGo rest (stopKey s :: seen)

/-- Deduplicate stops by key, first occurrence winning. -/
def dedupe (stops : List StopPoint) : List StopPoint := dedupeGo stops []

/-! ## Request reconciler (onSubmit as a state machine) -/

/-- The form inputs read by `onSubmit`. -/
structure SubmitInput where
  start : String
  finish : String
  startEmpty : Bool

/-- The `route` object of a plan-route response (only `geometry` is
read by `onSubmit`). -/
structure RouteObj where
  geometry : Option Geometry

/-- A parsed plan-route response body.  `stops` is `some` exactly when
`Array.isArray(res.stops)` holds. -/
structure PlanResp where
  route : Option RouteObj
  stops : Option (List RawStop)
  summary : Option JVal
  error : Option String

/-- How an in-flight `planRoute` call settles: the promise resolves
with a parsed response, or rejects (HTTP error, parse error, *or the
abort signal firing*) with the message that `err?.message || String(err)`
produces. -/
inductive Outcome where
  | success (resp : PlanResp)
  | failure (msg : String)

/-- An interleaving event: a form submission, or the settling of the
call carrying token `id`.  The environment chooses the order, so
completions may arrive in any order relative to issue order. -/
inductive Event where
  | submit (inp : SubmitInput)
  | resolve (id : Nat) (out : Outcome)

/-- The component state of `App`: the token counter `reqIdRef`, the id
whose `AbortController` is current (`abortRef`), the ids whose
controllers have been aborted, and the displayed state. -/
structure AppState where
  reqId : Nat
  activeId : Option Nat
  abortedIds : List Nat
  route : List (JVal × JVal)
  stops : List StopPoint
  summary : Option JVal
  errorMsg : Option String
  loading : Bool

/-- The initial component state. -/
def initState : AppState :=
  { reqId := 0, activeId := none, abortedIds := [], route := []
  , stops := [], summary := none, errorMsg := none, loading := false }

/-- `res.route?.geometry`. -/
def respGeometry (resp : PlanResp) : Option Geometry :=
  match resp.route with
  | some ro => ro.geometry
  | none => none

/-- Truthiness of the optional `error` string (`if (res.error)`). -/
def truthyError (e : Option String) : Bool :=
  match e with
  | some m => !m.isEmpty
  | none => false

/-- `res.summary || null`. -/
def truthySummary (v : Option JVal) : Option JVal :=
  match v with
  | some x => if jTruthy x then some x else none
  | none => none

/-- The synchronous part of `onSubmit` up to and including issuing the
request: clear error/summary/route/stops, validate the inputs, abort
the previous controller, mint the next token and mark it active, set
loading. -/
def submitStep (s : AppState) (inp : SubmitInput) : AppState :=
  if inp.start = "" ∨ inp.finish = "" then
    { s with errorMsg := some "Please enter both Start and Finish."
           , summary := none, route := [], stops := [] }
  else
    { s with errorMsg := none, summary := none, route := [], stops := []
           , abortedIds :=
               (match s.activeId with
                | some i => i :: s.abortedIds
                | none => s.abortedIds)
           , activeId := some (s.reqId + 1)
           , reqId := s.reqId + 1
           , loading := true }

/-- `if (res.error) setError(res.error)`: the domain-error surfacing
that `onSubmit` performs on a resolved response *before* checking the
token. -/
def applyDomainError (s : AppState) (e : Option String) : AppState :=
  if truthyError e then { s with errorMsg := e } else s

/-- The continuation of `onSubmit` after `await planRoute` settles for
the call carrying token `id`: the catch branch surfaces any rejection
message; the success branch first surfaces a truthy `res.error`
(`applyDomainError`, which leaves the token counter untouched, so the
staleness comparison reads the same `reqId`), then compares the token
against the counter, returning (with `finally` clearing `loading`)
when stale, otherwise committing route, stops and summary.  The
normalizer's `none` (thrown TypeError) lands in the catch branch. -/
def resolveStep (s : AppState) (id : Nat) (out : Outcome) : AppState :=
  match out with
  | .failure msg => { s with errorMsg := some msg, loading := false }
  | .success resp =>
    if s.reqId = id then
      match toLatLngs (respGeometry resp) with
      | none =>
        { applyDomainError s resp.error with
          errorMsg := some "coords.filter is not a function"
        , loading := false }
      | some latlngs =>
        { applyDomainError s resp.error with
          route := latlngs
        , stops := dedupe ((match resp.stops with
                            | some l => l.map mapStop
                            | none => []))
        , summary := truthySummary resp.summary
        , loading := false }
    else { applyDomainError s resp.error with loading := false }

/-- One interleaving step. -/
def step (s : AppState) (e : Event) : AppState :=
  match e with
  | .submit inp => submitStep s inp
  | .resolve id out => resolveStep s id out

/-! ## API error surfacing (api module) -/

/-- A settled HTTP response: status and body text. -/
structure HttpResponse where
  status : Nat
  body : String

/-- `res.ok`: status in the 2xx range. -/
def resOk (r : HttpResponse) : Bool :=
  decide (200 ≤ r.status) && decide (r.status < 300)

/-- `planRoute` from the api module, from the point the response has
settled; `parse` models `JSON.parse` followed by the structural read
(`none` when the body is not valid JSON).  Thrown errors are the
`Except.error` branch. -/
def planRoute (parse : String → Option PlanResp) (res : HttpResponse) :
    Except String PlanResp :=
  if !(resOk res) then
    .error ("Request failed (" ++ toString res.status ++ "): " ++ res.body)
  else
    match parse res.body with
    | some v => .ok v
    | none => .error ("Invalid JSON response: " ++ res.body.take 200)

/-- The `route`/`error` shape of a route-through-stops response. -/
structure RTSResp where
  route : Option RouteObj
  error : Option String

/-- `routeThroughStops` from the api module, same error discipline as
`planRoute`. -/
def routeThroughStops (parse : String → Option RTSResp) (res : HttpResponse) :
    Except String RTSResp :=
  if !(resOk res) then
    .error ("Request failed (" ++ toString res.status ++ "): " ++ res.body)
  else
    match parse res.body with
    | some v => .ok v
    | none => .error ("Invalid JSON response: " ++ res.body.take 200)

/-! ## Concrete sample data for witnesses and failing traces -/

/-- Sample form input A. -/
def inpA : SubmitInput := { start := "Denver, CO", finish := "Kansas City, MO", startEmpty := true }

/-- Sample form input B. -/
def inpB : SubmitInput := { start := "Boise, ID", finish := "Reno, NV", startEmpty := false }

/-- Sample geometry for request B's response. -/
def geomB : Geometry :=
  { gtype := some (.str "LineString")
  , coordinates := some (.arr [.arr [.num 1, .num 2], .arr [.num 3, .num 4]]) }

/-- Sample successful response for request B. -/
def respB : PlanResp :=
  { route := some { geometry := some geomB }, stops := some []
  , summary := none, error := none }

/-- Sample geometry for request A's (stale) response. -/
def geomA : Geometry :=
  { gtype := some (.str "LineString")
  , coordinates := some (.arr [.arr [.num 5, .num 6], .arr [.num 7, .num 8]]) }

/-- Sample stale successful response for request A. -/
def respA : PlanResp :=
  { route := some { geometry := some geomA }, stops := some []
  , summary := some (.str "other"), error := none }

/-- Sample stale response for request A whose body carries a domain
error field. -/
def respAerr : PlanResp :=
  { route := none, stops := none, summary := none
  , error := some "No route found" }

/-- Final state of the trace: submit A, submit B, B resolves
successfully, then A (stale) resolves carrying a domain `error` field. -/
def finalC2 : AppState :=
  List.foldl step initState
    [ .submit inpA, .submit inpB
    , .resolve 2 (.success respB), .resolve 1 (.success respAerr) ]

/-- Final state of the trace: submit A, submit B (which aborts A's
controller), then A's call rejects with the transport's abort error. -/
def finalC3 : AppState :=
  List.foldl step initState
    [ .submit inpA, .submit inpB
    , .resolve 1 (.failure "The operation was aborted") ]

/-- Witness trace state: after submitting A. -/
def wsA : AppState := step initState (.submit inpA)

/-- Witness trace state: after submitting B (superseding A). -/
def wsB : AppState := step wsA (.submit inpB)

/-- Witness trace state: after B's response resolves. -/
def wsB1 : AppState := step wsB (.resolve 2 (.success respB))

/-- Witness trace state: after A's (stale) response resolves last. -/
def wsA1 : AppState := step wsB1 (.resolve 1 (.success respA))

/-- Two sample stops sharing a station id but with different
descriptive fields. -/
def stopRec1 : StopPoint :=
  { station_id := some 7, lat := some (.num 39), lon := some (.num (-104))
  , name := some (.str "Stop A"), city := none, state := none
  , price := some 4, address := none, gallons_purchased := none
  , cost := none, mile_on_route := none }

/-- A duplicate of `stopRec1`'s key with different coordinates. -/
def stopRec2 : StopPoint :=
  { station_id := some 7, lat := some (.num 40), lon := some (.num (-105))
  , name := some (.str "Stop A dup"), city := none, state := none
  , price := some 5, address := none, gallons_purchased := none
  , cost := none, mile_on_route := none }

/-- A stop without station id, keyed by rounded coordinates. -/
def stopRec3 : StopPoint :=
  { station_id := none, lat := some (.num 41), lon := some (.num (-106))
  , name := some (.str "Stop B"), city := none, state := none
  , price := none, address := none, gallons_purchased := none
  , cost := none, mile_on_route := none }

/-- A body parser that always fails (for exercising the parse-error path). -/
def pnone : String → Option PlanResp := fun _ => none

/-- A route-through-stops body parser that always fails. -/
def p2none : String → Option RTSResp := fun _ => none

/-! ## Theorems -/

/-- Auxiliary: the code's nested-geometry extraction loop equals the
flatten-then-filter description used by `specKeptPoints`. -/
theorem nestedFlat_eq_spec (elems : List JVal) :
    nestedFlat elems =
      ((elems.filterMap (fun l => match l with
          | .arr pts => some pts
          | _ => none)).flatten).filter ptOk := by
  induction elems with
  | nil => rfl
  | cons l rest ih =>
    cases l with
    | arr pts =>
      simp [nestedFlat, lineFlat, List.filterMap_cons, List.filter_append, ih]
    | num x => simpa [nestedFlat, lineFlat, List.filterMap_cons] using ih
    | str s => simpa [nestedFlat, lineFlat, List.filterMap_cons] using ih
    | null => simpa [nestedFlat, lineFlat, List.filterMap_cons] using ih

/-- C4 (counterexample): the code keeps a length-2 point whose
components are strings, so the output length (1) differs from the
number of source points with at least two *numeric* components (0). -/
theorem toLatLngs_nonnumeric_cex :
    toLatLngs (some { gtype := none
                    , coordinates := some (.arr [.arr [.str "a", .str "b"]]) })
        = some [(.str "b", .str "a")] ∧
    (([JVal.arr [.str "a", .str "b"]]).filter specNumericPoint).length = 0 :=
  ⟨rfl, rfl⟩

/-- C4 (amended): for every GeometryPayload given as a list (flat list
of points or nested list-of-lists), `toLatLngs` succeeds and produces
exactly the source points that are sequences with at least two
components — numericity is not checked — each with its first two
components swapped from (lon, lat) to (lat, lon); hence the output
length equals the number of such points. -/
theorem toLatLngs_shape (elems : List JVal) :
    toLatLngs (some { gtype := none, coordinates := some (.arr elems) }) =
      some ((specKeptPoints (.arr elems)).map swapPt) ∧
    ((specKeptPoints (.arr elems)).map swapPt).length =
      (specKeptPoints (.arr elems)).length := by
  constructor
  · show (if !(jTruthy (.arr elems)) then some [] else _) = _
    rw [show jTruthy (.arr elems) = true from rfl]
    simp only [Bool.not_true, Bool.false_eq_true, if_false]
    by_cases h : ((jIndex (.arr elems) 0).isArr
        && (jIndex (jIndex (.arr elems) 0) 0).isArr) = true
    · simp only [h, if_true, specKeptPoints, nestedFlat_eq_spec]
    · simp only [h, if_false, specKeptPoints]
      simp
  · exact List.length_map _ _

/-- C4 (witness): the amended statement at a concrete mixed payload. -/
theorem toLatLngs_shape_witness :
    toLatLngs (some { gtype := none
                    , coordinates := some (.arr [.arr [.num 1, .num 2], .str "x"]) }) =
      some ((specKeptPoints (.arr [.arr [.num 1, .num 2], .str "x"])).map swapPt) ∧
    ((specKeptPoints (.arr [.arr [.num 1, .num 2], .str "x"])).map swapPt).length =
      (specKeptPoints (.arr [.arr [.num 1, .num 2], .str "x"])).length :=
  toLatLngs_shape [.arr [.num 1, .num 2], .str "x"]

/-- C5: an absent geometry and a geometry without coordinate data both
normalize to the empty route, not an error. -/
theorem toLatLngs_absent_empty :
    toLatLngs none = some [] ∧
    toLatLngs (some { gtype := none, coordinates := none }) = some [] :=
  ⟨rfl, rfl⟩

/-- C9: on both outbound calls, a non-2xx response surfaces an error
carrying the status code and the literal response body, and a 2xx
response whose body fails to parse surfaces a distinct parse error
carrying the first 200 characters of the raw body. -/
theorem api_error_surfacing (parse : String → Option PlanResp)
    (parse2 : String → Option RTSResp) (res : HttpResponse) :
    (resOk res = false →
      planRoute parse res =
        .error ("Request failed (" ++ toString res.status ++ "): " ++ res.body) ∧
      routeThroughStops parse2 res =
        .error ("Request failed (" ++ toString res.status ++ "): " ++ res.body)) ∧
    (resOk res = true → parse res.body = none →
      planRoute parse res =
        .error ("Invalid JSON response: " ++ res.body.take 200)) ∧
    (resOk res = true → parse2 res.body = none →
      routeThroughStops parse2 res =
        .error ("Invalid JSON response: " ++ res.body.take 200)) := by
  refine ⟨fun h => ?_, fun h hp => ?_, fun h hp => ?_⟩
  · constructor
    · simp [planRoute, h]
    · simp [routeThroughStops, h]
  · simp [planRoute, h, hp]
  · simp [routeThroughStops, h, hp]

/-- C9 (witness): status 500 with body "internal error" yields error
text containing 500 and the literal body; a 2xx unparseable body
yields the distinct parse error with the (truncated) body excerpt. -/
theorem api_error_surfacing_witness :
    planRoute pnone { status := 500, body := "internal error" } =
      .error ("Request failed (" ++ toString (500 : Nat) ++ "): " ++ "internal error") ∧
    planRoute pnone { status := 200, body := "not json" } =
      .error ("Invalid JSON response: " ++ ("not json").take 200) :=
  ⟨((api_error_surfacing pnone p2none
      { status := 500, body := "internal error" }).1 (by decide)).1,
   (api_error_surfacing pnone p2none
      { status := 200, body := "not json" }).2.1 (by decide) rfl⟩

/-- Auxiliary: the deduplication loop yields a sublist of its input
(order preserved, elements only dropped). -/
theorem dedupeGo_sublist : ∀ (l : List StopPoint) (seen : List StopKey),
    List.Sublist (dedupeGo l seen) l := by
  intro l
  induction l with
  | nil => intro seen; simp [dedupeGo]
  | cons s rest ih =>
    intro seen
    by_cases h : stopKey s ∈ seen
    · simp only [dedupeGo, if_pos h]
      exact (ih seen).cons s
    · simp only [dedupeGo, if_neg h]
      exact (ih _).cons₂ s

/-- Auxiliary: the keys of the loop's output are pairwise distinct and
disjoint from the `seen` set. -/
theorem dedupeGo_keys : ∀ (l : List StopPoint) (seen : List StopKey),
    ((dedupeGo l seen).map stopKey).Nodup ∧
    ∀ k ∈ (dedupeGo l seen).map stopKey, k ∉ seen := by
  intro l
  induction l with
  | nil => intro seen; simp [dedupeGo]
  | cons s rest ih =>
    intro seen
    by_cases h : stopKey s ∈ seen
    · simpa only [dedupeGo, if_pos h] using ih seen
    · obtain ⟨hnd, hdisj⟩ := ih (stopKey s :: seen)
      simp only [dedupeGo, if_neg h, List.map_cons, List.nodup_cons]
      refine ⟨⟨fun hmem => ?_, hnd⟩, ?_⟩
      · exact (hdisj _ hmem) (List.mem_cons_self _ _)
      · intro k hk
        rcases List.mem_cons.mp hk with hk | hk
        · subst hk; exact h
        · intro hkseen
          exact (hdisj _ hk) (List.mem_cons.mpr (Or.inr hkseen))

/-- Auxiliary: a list whose keys are pairwise distinct and unseen is a
fixed point of the deduplication loop. -/
theorem dedupeGo_fixed : ∀ (l : List StopPoint) (seen : List StopKey),
    (l.map stopKey).Nodup → (∀ k ∈ l.map stopKey, k ∉ seen) →
    dedupeGo l seen = l := by
  intro l
  induction l with
  | nil => intro seen _ _; rfl
  | cons s rest ih =>
    intro seen hnd hdisj
    have hs : stopKey s ∉ seen := hdisj _ (by simp)
    simp only [List.map_cons] at hnd
    have hnd' := List.nodup_cons.mp hnd
    simp only [dedupeGo, if_neg hs]
    congr 1
    apply ih
    · exact hnd'.2
    · intro k hk hmem
      rcases List.mem_cons.mp hmem with he | he
      · subst he; exact hnd'.1 hk
      · exact hdisj k (by simp [hk]) he

/-- Auxiliary: for a key outside `seen`, the first record with that
key in the loop's output is the first record with that key in the
input. -/
theorem dedupeGo_first : ∀ (l : List StopPoint) (seen : List StopKey) (k : StopKey),
    k ∉ seen →
    (dedupeGo l seen).find? (fun t => decide (stopKey t = k)) =
      l.find? (fun t => decide (stopKey t = k)) := by
  intro l
  induction l with
  | nil => intros; rfl
  | cons s rest ih =>
    intro seen k hk
    by_cases hs : stopKey s ∈ seen
    · have hne : stopKey s ≠ k := fun he => hk (he ▸ hs)
      simp only [dedupeGo, if_pos hs]
      rw [ih seen k hk, List.find?_cons_of_neg _ (by simp [hne])]
    · simp only [dedupeGo, if_neg hs]
      by_cases he : stopKey s = k
      · rw [List.find?_cons_of_pos _ (by simp [he]),
            List.find?_cons_of_pos _ (by simp [he])]
      · rw [List.find?_cons_of_neg _ (by simp [he]),
            List.find?_cons_of_neg _ (by simp [he])]
        refine ih _ k ?_
        intro hmem
        rcases List.mem_cons.mp hmem with hh | hh
        · exact he hh.symm
        · exact hk hh

/-- C8: `dedupe` is idempotent, length non-increasing, and
order-preserving with the first occurrence of each key winning (the
output is a sublist of the input, and for every key the first matching
record of the output is the first matching record of the input). -/
theorem dedupe_props (x : List StopPoint) :
    dedupe (dedupe x) = dedupe x ∧
    (dedupe x).length ≤ x.length ∧
    List.Sublist (dedupe x) x ∧
    ∀ k : StopKey,
      (dedupe x).find? (fun t => decide (stopKey t = k)) =
        x.find? (fun t => decide (stopKey t = k)) := by
  have hsub := dedupeGo_sublist x []
  refine ⟨?_, hsub.length_le, hsub, ?_⟩
  · exact dedupeGo_fixed _ _ (dedupeGo_keys x []).1 (fun k _ => List.not_mem_nil k)
  · intro k
    exact dedupeGo_first x [] k (List.not_mem_nil k)

/-- C8 (witness): the properties at a concrete stop list containing a
duplicated station id. -/
theorem dedupe_props_witness :
    dedupe (dedupe [stopRec1, stopRec2, stopRec3]) =
      dedupe [stopRec1, stopRec2, stopRec3] ∧
    (dedupe [stopRec1, stopRec2, stopRec3]).length ≤
      ([stopRec1, stopRec2, stopRec3]).length ∧
    List.Sublist (dedupe [stopRec1, stopRec2, stopRec3])
      [stopRec1, stopRec2, stopRec3] ∧
    ∀ k : StopKey,
      (dedupe [stopRec1, stopRec2, stopRec3]).find?
          (fun t => decide (stopKey t = k)) =
        ([stopRec1, stopRec2, stopRec3]).find?
          (fun t => decide (stopKey t = k)) :=
  dedupe_props [stopRec1, stopRec2, stopRec3]

/-- Auxiliary: the running minimum never exceeds its initial value. -/
theorem minD2Aux_le_init (p : Pt) : ∀ (l : List Pt) (b : ℚ), minD2Aux p l b ≤ b := by
  intro l
  induction l with
  | nil => intro b; exact le_refl b
  | cons q rest ih =>
    intro b
    refine le_trans (ih _) ?_
    by_cases h : dist2 p q < b
    · rw [if_pos h]; exact le_of_lt h
    · rw [if_neg h]

/-- Auxiliary: the running minimum never exceeds the distance to any
base point scanned. -/
theorem minD2Aux_le_mem (p : Pt) : ∀ (l : List Pt) (b : ℚ) (q : Pt), q ∈ l →
    minD2Aux p l b ≤ dist2 p q := by
  intro l
  induction l with
  | nil => intro b q hq; cases hq
  | cons x rest ih =>
    intro b q hq
    rcases List.mem_cons.mp hq with he | hm
    · subst he
      refine le_trans (minD2Aux_le_init p rest _) ?_
      by_cases h : dist2 p q < b
      · rw [if_pos h]
      · rw [if_neg h]; exact le_of_not_lt h
    · exact ih _ q hm

/-- Auxiliary: a point is at squared distance zero from itself. -/
theorem dist2_self (p : Pt) : dist2 p p = 0 := by
  simp [dist2]

/-- Auxiliary: a detour point that occurs in the base route is `near`
(its minimum squared distance is 0, below the threshold). -/
theorem near_self_mem (base : List Pt) (p : Pt) (hp : p ∈ base) :
    isNearBase base p = true := by
  cases base with
  | nil => cases hp
  | cons q rest =>
    have hle : minD2Aux p rest (dist2 p q) ≤ 0 := by
      rcases List.mem_cons.mp hp with he | hm
      · subst he
        exact le_of_le_of_eq (minD2Aux_le_init p rest _) (dist2_self p)
      · exact le_of_le_of_eq (minD2Aux_le_mem p rest _ p hm) (dist2_self p)
    simp only [isNearBase, minDist2ToBase, decide_eq_true_eq]
    refine le_trans hle ?_
    norm_num [GREEN_THRESHOLD_DEG2]

/-- Auxiliary: when all remaining points share the current (green)
classification, the loop extends the current run to the end and emits
it alone into the green accumulator. -/
theorem classifyGo_all_true (f : Pt → Bool) : ∀ (rest : List Pt) (prev : Pt)
    (cur : List Pt) (g r : List (List Pt)), (∀ p ∈ rest, f p = true) →
    classifyGo f rest prev cur true g r =
      if 1 < (cur ++ rest).length then (g ++ [cur ++ rest], r) else (g, r) := by
  intro rest
  induction rest with
  | nil =>
    intro prev cur g r _
    simp [classifyGo]
  | cons pt rest' ih =>
    intro prev cur g r hall
    have hpt : f pt = true := hall pt (by simp)
    simp only [classifyGo, hpt, if_pos]
    rw [ih pt (cur ++ [pt]) g r (fun p hp => hall p (by simp [hp]))]
    rw [List.append_cons cur pt rest']

/-- C6 (counterexample): with a degenerate one-point route passed as
both base and detour, `classify` attempts no classification and
returns two empty lists, not one on-route segment covering the route. -/
theorem classify_singleton_cex :
    classify [((0 : ℚ), (0 : ℚ))] [((0 : ℚ), (0 : ℚ))] = ([], []) ∧
    classify [((0 : ℚ), (0 : ℚ))] [((0 : ℚ), (0 : ℚ))] ≠
      ([[((0 : ℚ), (0 : ℚ))]], []) := by
  refine ⟨rfl, ?_⟩
  intro h
  rw [show classify [((0 : ℚ), (0 : ℚ))] [((0 : ℚ), (0 : ℚ))] = ([], []) from rfl] at h
  simp at h

/-- C6 (amended): for any route `r` with at least two points passed as
both base and detour, `classify` yields exactly one on-route segment,
equal to the whole route, and no detour segments; routes with fewer
than two points yield two empty lists. -/
theorem classify_self (r : List Pt) (h : 2 ≤ r.length) :
    classify r r = ([r], []) := by
  cases r with
  | nil => simp at h
  | cons p0 rest =>
    have hlen : 1 < (p0 :: rest).length := h
    have hf0 : isNearBase (p0 :: rest) p0 = true := near_self_mem _ _ (by simp)
    unfold classify
    rw [if_pos (And.intro hlen hlen)]
    show classifyGo (isNearBase (p0 :: rest)) rest p0 [p0]
        (isNearBase (p0 :: rest) p0) [] [] = ([p0 :: rest], [])
    rw [hf0]
    rw [classifyGo_all_true (isNearBase (p0 :: rest)) rest p0 [p0] [] []
        (fun p hp => near_self_mem _ _ (by simp [hp]))]
    have hne : rest ≠ [] := by
      intro he
      subst he
      exact absurd hlen (by simp)
    simp [hne]

/-- C6 (witness): the amended statement at a concrete two-point route. -/
theorem classify_self_witness :
    classify [((0 : ℚ), (0 : ℚ)), ((1 : ℚ), (1 : ℚ))]
        [((0 : ℚ), (0 : ℚ)), ((1 : ℚ), (1 : ℚ))] =
      ([[((0 : ℚ), (0 : ℚ)), ((1 : ℚ), (1 : ℚ))]], []) :=
  classify_self [((0 : ℚ), (0 : ℚ)), ((1 : ℚ), (1 : ℚ))] (by decide)

/-- Auxiliary: the two-accumulator classification loop computes the
green/red projections of the single emitted-run list. -/
theorem classifyGo_eq_runs (f : Pt → Bool) : ∀ (rest : List Pt) (prev : Pt)
    (cur : List Pt) (cg : Bool) (g r : List (List Pt)),
    classifyGo f rest prev cur cg g r =
      (g ++ (runsGo f rest prev cur cg).filterMap grnProj,
       r ++ (runsGo f rest prev cur cg).filterMap redProj) := by
  intro rest
  induction rest with
  | nil =>
    intro prev cur cg g r
    by_cases hl : 1 < cur.length
    · cases cg with
      | true => simp [classifyGo, runsGo, hl, grnProj, redProj]
      | false => simp [classifyGo, runsGo, hl, grnProj, redProj]
    · simp [classifyGo, runsGo, hl]
  | cons pt rest' ih =>
    intro prev cur cg g r
    by_cases hf : f pt = cg
    · simp only [classifyGo, runsGo, if_pos hf]
      exact ih pt (cur ++ [pt]) cg g r
    · by_cases hl : 1 < cur.length
      · cases cg with
        | true =>
          simp only [classifyGo, runsGo, if_neg hf, if_pos hl, if_true]
          rw [ih pt [prev, pt] (f pt) (g ++ [cur]) r]
          simp [grnProj, redProj, List.filterMap_cons, List.append_assoc]
        | false =>
          simp only [classifyGo, runsGo, if_neg hf, if_pos hl, if_false]
          rw [ih pt [prev, pt] (f pt) g (r ++ [cur])]
          simp [grnProj, redProj, List.filterMap_cons, List.append_assoc]
      · simp only [classifyGo, runsGo, if_neg hf, if_neg hl]
        exact ih pt [prev, pt] (f pt) g r

/-- Auxiliary: `classify` is the pair of green/red projections of the
emitted-run list `runsOf`. -/
theorem classify_eq_runs (b d : List Pt) :
    classify b d =
      ((runsOf b d).filterMap grnProj, (runsOf b d).filterMap redProj) := by
  by_cases hg : 1 < b.length ∧ 1 < d.length
  · cases d with
    | nil => simp [classify, runsOf, hg]
    | cons p0 rest =>
      unfold classify runsOf
      rw [if_pos hg, if_pos hg]
      show classifyGo (isNearBase b) rest p0 [p0] (isNearBase b p0) [] [] = _
      rw [classifyGo_eq_runs (isNearBase b) rest p0 [p0] (isNearBase b p0) [] []]
      simp
  · simp [classify, runsOf, hg]

/-- Auxiliary: a green projection hit returns the run's point list. -/
theorem grnProj_some {q : Bool × List Pt} {seg : List Pt}
    (h : grnProj q = some seg) : q.2 = seg := by
  unfold grnProj at h
  by_cases hq : q.1 = true
  · rw [if_pos hq] at h; exact Option.some.inj h
  · rw [if_neg hq] at h; cases h

/-- Auxiliary: a red projection hit returns the run's point list. -/
theorem redProj_some {q : Bool × List Pt} {seg : List Pt}
    (h : redProj q = some seg) : q.2 = seg := by
  unfold redProj at h
  by_cases hq : q.1 = true
  · rw [if_pos hq] at h; cases h
  · rw [if_neg hq] at h; exact Option.some.inj h

/-- Auxiliary: main invariant of the emitted-run list.  Starting from
a current run with at least two points whose last point is `prev`, the
loop emits a first run extending the current one, adjacent emitted
runs have opposite classifications and share their boundary point,
gluing the emitted runs reconstructs `cur ++ rest`, and every emitted
run has at least two points. -/
theorem runsGo_inv (f : Pt → Bool) : ∀ (rest : List Pt) (prev : Pt)
    (cur : List Pt) (cg : Bool), 2 ≤ cur.length → cur.getLast? = some prev →
    ∃ ext rs,
      runsGo f rest prev cur cg = (cg, cur ++ ext) :: rs ∧
      List.Chain' runR ((cg, cur ++ ext) :: rs) ∧
      glue (((cg, cur ++ ext) :: rs).map Prod.snd) = cur ++ rest ∧
      ∀ q ∈ (cg, cur ++ ext) :: rs, 2 ≤ q.2.length := by
  intro rest
  induction rest with
  | nil =>
    intro prev cur cg hlen _
    have h1 : 1 < cur.length := hlen
    refine ⟨[], [], ?_, ?_, ?_, ?_⟩
    · simp [runsGo, h1]
    · simp [List.chain'_singleton]
    · simp [glue]
    · intro q hq
      simp only [List.mem_singleton] at hq
      subst hq
      simpa using hlen
  | cons pt rest' ih =>
    intro prev cur cg hlen hlast
    by_cases hf : f pt = cg
    · obtain ⟨ext, rs, heq, hch, hgl, hlens⟩ :=
        ih pt (cur ++ [pt]) cg (by simp; omega) (List.getLast?_concat cur)
      refine ⟨[pt] ++ ext, rs, ?_, ?_, ?_, ?_⟩
      · simp only [runsGo, if_pos hf]
        rw [heq, ← List.append_assoc]
      · rw [← List.append_assoc]; exact hch
      · rw [← List.append_assoc, hgl, List.append_cons cur pt rest']
      · rw [← List.append_assoc]; exact hlens
    · have h1 : 1 < cur.length := hlen
      obtain ⟨ext, rs, heq, hch, hgl, hlens⟩ :=
        ih pt [prev, pt] (f pt) (by simp) rfl
      have hkey : ext ++ (List.map (List.drop 1) (List.map Prod.snd rs)).flatten
          = rest' := by
        simp only [glue, List.map_cons, List.cons_append, List.nil_append] at hgl
        simpa using hgl
      refine ⟨[], (f pt, [prev, pt] ++ ext) :: rs, ?_, ?_, ?_, ?_⟩
      · simp only [runsGo, if_neg hf, if_pos h1]
        rw [heq]
        simp
      · refine List.chain'_cons.mpr ⟨⟨?_, ?_⟩, ?_⟩
        · exact fun he => hf (by simpa using he.symm)
        · simpa using hlast
        · exact hch
      · simp only [glue, List.map_cons, List.append_nil]
        rw [show List.drop 1 ([prev, pt] ++ ext) = pt :: ext from rfl]
        rw [List.append_cons cur pt rest', ← hkey]
        simp
      · intro q hq
        rcases List.mem_cons.mp hq with he | hm
        · subst he; simpa using hlen
        · exact hlens q hm

/-- Auxiliary: for nondegenerate base and detour, the emitted runs of
the classification chain with shared boundary points and opposite
labels, glue back to the detour, and each have at least two points. -/
theorem runsOf_spec (b d : List Pt) (hb : 1 < b.length) (hd : 1 < d.length) :
    List.Chain' runR (runsOf b d) ∧
    glue ((runsOf b d).map Prod.snd) = d ∧
    ∀ q ∈ runsOf b d, 2 ≤ q.2.length := by
  cases d with
  | nil => simp at hd
  | cons p0 d' =>
    cases d' with
    | nil => simp at hd
    | cons p1 rest =>
      unfold runsOf
      rw [if_pos ⟨hb, hd⟩]
      show List.Chain' runR (runsGo (isNearBase b) (p1 :: rest) p0 [p0]
            (isNearBase b p0)) ∧
          glue ((runsGo (isNearBase b) (p1 :: rest) p0 [p0]
            (isNearBase b p0)).map Prod.snd) = p0 :: p1 :: rest ∧
          ∀ q ∈ runsGo (isNearBase b) (p1 :: rest) p0 [p0] (isNearBase b p0),
            2 ≤ q.2.length
      have main : ∀ cg : Bool,
          List.Chain' runR (runsGo (isNearBase b) rest p1 [p0, p1] cg) ∧
          glue ((runsGo (isNearBase b) rest p1 [p0, p1] cg).map Prod.snd) =
            p0 :: p1 :: rest ∧
          ∀ q ∈ runsGo (isNearBase b) rest p1 [p0, p1] cg, 2 ≤ q.2.length := by
        intro cg
        obtain ⟨ext, rs, heq, hch, hgl, hlens⟩ :=
          runsGo_inv (isNearBase b) rest p1 [p0, p1] cg (by simp) rfl
        rw [heq]
        exact ⟨hch, by simpa using hgl, hlens⟩
      by_cases hf : isNearBase b p1 = isNearBase b p0
      · have hstep : runsGo (isNearBase b) (p1 :: rest) p0 [p0] (isNearBase b p0) =
            runsGo (isNearBase b) rest p1 [p0, p1] (isNearBase b p0) := by
          simp [runsGo, hf]
        rw [hstep]
        exact main (isNearBase b p0)
      · have hstep : runsGo (isNearBase b) (p1 :: rest) p0 [p0] (isNearBase b p0) =
            runsGo (isNearBase b) rest p1 [p0, p1] (isNearBase b p1) := by
          simp [runsGo, hf]
        rw [hstep]
        exact main (isNearBase b p1)

/-- Auxiliary: every point of a glued segment list lies in one of the
segments. -/
theorem glue_mem {p : Pt} : ∀ {L : List (List Pt)}, p ∈ glue L →
    ∃ s ∈ L, p ∈ s := by
  intro L hp
  cases L with
  | nil => cases hp
  | cons s ss =>
    simp only [glue] at hp
    rcases List.mem_append.mp hp with h | h
    · exact ⟨s, by simp, h⟩
    · obtain ⟨t, ht, hpt⟩ := List.mem_flatten.mp h
      obtain ⟨u, hu, hut⟩ := List.mem_map.mp ht
      refine ⟨u, by simp [hu], ?_⟩
      rw [← hut] at hpt
      exact List.drop_subset 1 u hpt

/-- C7: every segment returned by `classify` (in either output list)
has at least two points, and consecutive emitted runs along the detour
have opposite classifications and share a boundary point (the last
point of the earlier run is the first point of the later run, since a
new run is seeded with the previous point plus the current point);
`classify`'s outputs are exactly the green/red projections of the
emitted-run sequence `runsOf`. -/
theorem classify_boundary_invariant (b d : List Pt) :
    (∀ seg ∈ (classify b d).1, 2 ≤ seg.length) ∧
    (∀ seg ∈ (classify b d).2, 2 ≤ seg.length) ∧
    (classify b d).1 = (runsOf b d).filterMap grnProj ∧
    (classify b d).2 = (runsOf b d).filterMap redProj ∧
    List.Chain' runR (runsOf b d) := by
  have hq := classify_eq_runs b d
  have h1 : (classify b d).1 = (runsOf b d).filterMap grnProj :=
    congrArg Prod.fst hq
  have h2 : (classify b d).2 = (runsOf b d).filterMap redProj :=
    congrArg Prod.snd hq
  by_cases hg : 1 < b.length ∧ 1 < d.length
  · obtain ⟨hch, _, hlens⟩ := runsOf_spec b d hg.1 hg.2
    refine ⟨?_, ?_, h1, h2, hch⟩
    · intro seg hseg
      rw [h1] at hseg
      obtain ⟨q, hqm, hqs⟩ := List.mem_filterMap.mp hseg
      exact (grnProj_some hqs) ▸ hlens q hqm
    · intro seg hseg
      rw [h2] at hseg
      obtain ⟨q, hqm, hqs⟩ := List.mem_filterMap.mp hseg
      exact (redProj_some hqs) ▸ hlens q hqm
  · have hr : runsOf b d = [] := by simp [runsOf, hg]
    have hc : classify b d = ([], []) := by simp [classify, hg]
    refine ⟨?_, ?_, h1, h2, ?_⟩ <;> simp [hr, hc]

/-- C7 (witness): the invariant at a concrete base and a detour that
leaves and rejoins the base. -/
theorem classify_boundary_invariant_witness :
    (∀ seg ∈ (classify [((0 : ℚ), (0 : ℚ)), ((0 : ℚ), (1 : ℚ))]
        [((0 : ℚ), (0 : ℚ)), ((1 : ℚ), (0 : ℚ)), ((0 : ℚ), (1 : ℚ))]).1,
      2 ≤ seg.length) ∧
    (∀ seg ∈ (classify [((0 : ℚ), (0 : ℚ)), ((0 : ℚ), (1 : ℚ))]
        [((0 : ℚ), (0 : ℚ)), ((1 : ℚ), (0 : ℚ)), ((0 : ℚ), (1 : ℚ))]).2,
      2 ≤ seg.length) ∧
    (classify [((0 : ℚ), (0 : ℚ)), ((0 : ℚ), (1 : ℚ))]
        [((0 : ℚ), (0 : ℚ)), ((1 : ℚ), (0 : ℚ)), ((0 : ℚ), (1 : ℚ))]).1 =
      (runsOf [((0 : ℚ), (0 : ℚ)), ((0 : ℚ), (1 : ℚ))]
        [((0 : ℚ), (0 : ℚ)), ((1 : ℚ), (0 : ℚ)), ((0 : ℚ), (1 : ℚ))]).filterMap grnProj ∧
    (classify [((0 : ℚ), (0 : ℚ)), ((0 : ℚ), (1 : ℚ))]
        [((0 : ℚ), (0 : ℚ)), ((1 : ℚ), (0 : ℚ)), ((0 : ℚ), (1 : ℚ))]).2 =
      (runsOf [((0 : ℚ), (0 : ℚ)), ((0 : ℚ), (1 : ℚ))]
        [((0 : ℚ), (0 : ℚ)), ((1 : ℚ), (0 : ℚ)), ((0 : ℚ), (1 : ℚ))]).filterMap redProj ∧
    List.Chain' runR (runsOf [((0 : ℚ), (0 : ℚ)), ((0 : ℚ), (1 : ℚ))]
        [((0 : ℚ), (0 : ℚ)), ((1 : ℚ), (0 : ℚ)), ((0 : ℚ), (1 : ℚ))]) :=
  classify_boundary_invariant
    [((0 : ℚ), (0 : ℚ)), ((0 : ℚ), (1 : ℚ))]
    [((0 : ℚ), (0 : ℚ)), ((1 : ℚ), (0 : ℚ)), ((0 : ℚ), (1 : ℚ))]

/-- C10: for nondegenerate base and detour, gluing the emitted runs in
detour order (dropping the duplicated shared boundary point at each
junction) reconstructs the detour exactly; `classify`'s outputs are
the projections of those runs, so every detour point appears in at
least one returned segment — in particular the discarded single-point
initial run loses no point. -/
theorem classify_coverage (b d : List Pt) (hb : 1 < b.length)
    (hd : 1 < d.length) :
    glue ((runsOf b d).map Prod.snd) = d ∧
    (classify b d).1 = (runsOf b d).filterMap grnProj ∧
    (classify b d).2 = (runsOf b d).filterMap redProj ∧
    ∀ p ∈ d, ∃ seg, (seg ∈ (classify b d).1 ∨ seg ∈ (classify b d).2) ∧
      p ∈ seg := by
  obtain ⟨_, hgl, _⟩ := runsOf_spec b d hb hd
  have hq := classify_eq_runs b d
  have h1 : (classify b d).1 = (runsOf b d).filterMap grnProj :=
    congrArg Prod.fst hq
  have h2 : (classify b d).2 = (runsOf b d).filterMap redProj :=
    congrArg Prod.snd hq
  refine ⟨hgl, h1, h2, ?_⟩
  intro p hp
  rw [← hgl] at hp
  obtain ⟨s, hs, hps⟩ := glue_mem hp
  obtain ⟨q, hqm, hqs⟩ := List.mem_map.mp hs
  refine ⟨s, ?_, hps⟩
  cases hqb : q.1 with
  | true =>
    left
    rw [h1]
    exact List.mem_filterMap.mpr ⟨q, hqm, by simp [grnProj, hqb, hqs]⟩
  | false =>
    right
    rw [h2]
    exact List.mem_filterMap.mpr ⟨q, hqm, by simp [redProj, hqb, hqs]⟩

/-- C10 (witness): the coverage statement at a concrete base and
detour with an off-route excursion. -/
theorem classify_coverage_witness :
    glue ((runsOf [((0 : ℚ), (0 : ℚ)), ((0 : ℚ), (1 : ℚ))]
        [((0 : ℚ), (0 : ℚ)), ((1 : ℚ), (0 : ℚ)), ((0 : ℚ), (1 : ℚ))]).map Prod.snd) =
      [((0 : ℚ), (0 : ℚ)), ((1 : ℚ), (0 : ℚ)), ((0 : ℚ), (1 : ℚ))] ∧
    (classify [((0 : ℚ), (0 : ℚ)), ((0 : ℚ), (1 : ℚ))]
        [((0 : ℚ), (0 : ℚ)), ((1 : ℚ), (0 : ℚ)), ((0 : ℚ), (1 : ℚ))]).1 =
      (runsOf [((0 : ℚ), (0 : ℚ)), ((0 : ℚ), (1 : ℚ))]
        [((0 : ℚ), (0 : ℚ)), ((1 : ℚ), (0 : ℚ)), ((0 : ℚ), (1 : ℚ))]).filterMap grnProj ∧
    (classify [((0 : ℚ), (0 : ℚ)), ((0 : ℚ), (1 : ℚ))]
        [((0 : ℚ), (0 : ℚ)), ((1 : ℚ), (0 : ℚ)), ((0 : ℚ), (1 : ℚ))]).2 =
      (runsOf [((0 : ℚ), (0 : ℚ)), ((0 : ℚ), (1 : ℚ))]
        [((0 : ℚ), (0 : ℚ)), ((1 : ℚ), (0 : ℚ)), ((0 : ℚ), (1 : ℚ))]).filterMap redProj ∧
    ∀ p ∈ [((0 : ℚ), (0 : ℚ)), ((1 : ℚ), (0 : ℚ)), ((0 : ℚ), (1 : ℚ))],
      ∃ seg, (seg ∈ (classify [((0 : ℚ), (0 : ℚ)), ((0 : ℚ), (1 : ℚ))]
          [((0 : ℚ), (0 : ℚ)), ((1 : ℚ), (0 : ℚ)), ((0 : ℚ), (1 : ℚ))]).1 ∨
        seg ∈ (classify [((0 : ℚ), (0 : ℚ)), ((0 : ℚ), (1 : ℚ))]
          [((0 : ℚ), (0 : ℚ)), ((1 : ℚ), (0 : ℚ)), ((0 : ℚ), (1 : ℚ))]).2) ∧
        p ∈ seg :=
  classify_coverage
    [((0 : ℚ), (0 : ℚ)), ((0 : ℚ), (1 : ℚ))]
    [((0 : ℚ), (0 : ℚ)), ((1 : ℚ), (0 : ℚ)), ((0 : ℚ), (1 : ℚ))]
    (by decide) (by decide)

/-- Auxiliary: surfacing a domain error does not touch the token
counter. -/
theorem applyDomainError_reqId (s : AppState) (e : Option String) :
    (applyDomainError s e).reqId = s.reqId := by
  unfold applyDomainError
  split <;> rfl

/-- Auxiliary: surfacing a domain error does not touch the displayed
route, stops or summary. -/
theorem applyDomainError_display (s : AppState) (e : Option String) :
    (applyDomainError s e).route = s.route ∧
    (applyDomainError s e).stops = s.stops ∧
    (applyDomainError s e).summary = s.summary := by
  unfold applyDomainError
  split <;> exact ⟨rfl, rfl, rfl⟩

/-- Auxiliary: a resolution never changes the token counter. -/
theorem resolveStep_reqId (s : AppState) (id : Nat) (out : Outcome) :
    (resolveStep s id out).reqId = s.reqId := by
  cases out with
  | failure msg => rfl
  | success resp =>
    simp only [resolveStep]
    split
    · split
      · exact applyDomainError_reqId s resp.error
      · exact applyDomainError_reqId s resp.error
    · exact applyDomainError_reqId s resp.error

/-- Auxiliary: a resolution whose token does not match the counter
never changes the displayed route, stops or summary. -/
theorem resolveStep_stale (s : AppState) (id : Nat) (out : Outcome)
    (h : s.reqId ≠ id) :
    (resolveStep s id out).route = s.route ∧
    (resolveStep s id out).stops = s.stops ∧
    (resolveStep s id out).summary = s.summary := by
  cases out with
  | failure msg => exact ⟨rfl, rfl, rfl⟩
  | success resp =>
    simp only [resolveStep]
    rw [if_neg h]
    exact applyDomainError_display s resp.error

/-- Auxiliary: a valid submission mints the next token. -/
theorem submitStep_reqId (s : AppState) (inp : SubmitInput)
    (h1 : inp.start ≠ "") (h2 : inp.finish ≠ "") :
    (submitStep s inp).reqId = s.reqId + 1 := by
  unfold submitStep
  rw [if_neg (by simp [h1, h2])]

/-- Auxiliary: a resolution whose token matches the counter commits
the processed response to the displayed state. -/
theorem resolveStep_commit (s : AppState) (id : Nat) (resp : PlanResp)
    (latlngs : List (JVal × JVal)) (hid : s.reqId = id)
    (hll : toLatLngs (respGeometry resp) = some latlngs) :
    (resolveStep s id (.success resp)).route = latlngs ∧
    (resolveStep s id (.success resp)).stops =
      dedupe ((resp.stops.getD []).map mapStop) ∧
    (resolveStep s id (.success resp)).summary = truthySummary resp.summary := by
  obtain ⟨ro, st, su, er⟩ := resp
  simp only [resolveStep]
  rw [if_pos hid, hll]
  cases st with
  | none => exact ⟨rfl, rfl, rfl⟩
  | some l => exact ⟨rfl, rfl, rfl⟩

/-- C1: if request A is submitted, request B is submitted before A
resolves, and A resolves after B resolves, then A's resolution leaves
the displayed route/stops/summary exactly as B's resolution left them
(A's result is never committed), and B's resolution committed B's
processed result — the token comparison, not completion order, decides. -/
theorem reconciler_staleness (s0 : AppState) (iA iB : SubmitInput)
    (outA outB : Outcome) (s1 s2 s3 s4 : AppState)
    (hA1 : iA.start ≠ "") (hA2 : iA.finish ≠ "")
    (hB1 : iB.start ≠ "") (hB2 : iB.finish ≠ "")
    (h1 : s1 = step s0 (.submit iA))
    (h2 : s2 = step s1 (.submit iB))
    (h3 : s3 = step s2 (.resolve (s0.reqId + 2) outB))
    (h4 : s4 = step s3 (.resolve (s0.reqId + 1) outA)) :
    (s4.route = s3.route ∧ s4.stops = s3.stops ∧ s4.summary = s3.summary) ∧
    ∀ resp latlngs, outB = .success resp →
      toLatLngs (respGeometry resp) = some latlngs →
      s3.route = latlngs ∧
      s3.stops = dedupe ((resp.stops.getD []).map mapStop) ∧
      s3.summary = truthySummary resp.summary := by
  have hr1 : s1.reqId = s0.reqId + 1 := by
    rw [h1]; exact submitStep_reqId s0 iA hA1 hA2
  have hr2 : s2.reqId = s0.reqId + 2 := by
    rw [h2]
    rw [show step s1 (.submit iB) = submitStep s1 iB from rfl]
    rw [submitStep_reqId s1 iB hB1 hB2, hr1]
  have hr3 : s3.reqId = s0.reqId + 2 := by
    rw [h3]
    rw [show step s2 (.resolve (s0.reqId + 2) outB) =
        resolveStep s2 (s0.reqId + 2) outB from rfl]
    rw [resolveStep_reqId s2 (s0.reqId + 2) outB, hr2]
  constructor
  · rw [h4]
    exact resolveStep_stale s3 (s0.reqId + 1) outA (by rw [hr3]; omega)
  · intro resp latlngs hB hll
    subst hB
    rw [h3]
    exact resolveStep_commit s2 (s0.reqId + 2) resp latlngs hr2 hll

/-- C1 (witness): the concrete four-event trace submit A, submit B,
resolve B, resolve A (stale). -/
theorem reconciler_staleness_witness :
    (wsA1.route = wsB1.route ∧ wsA1.stops = wsB1.stops ∧
      wsA1.summary = wsB1.summary) ∧
    ∀ resp latlngs, Outcome.success respB = .success resp →
      toLatLngs (respGeometry resp) = some latlngs →
      wsB1.route = latlngs ∧
      wsB1.stops = dedupe ((resp.stops.getD []).map mapStop) ∧
      wsB1.summary = truthySummary resp.summary :=
  reconciler_staleness initState inpA inpB (.success respA) (.success respB)
    wsA wsB wsB1 wsA1
    (by decide) (by decide) (by decide) (by decide)
    rfl rfl rfl rfl

/-- C2 (code evaluated at the failing input): after submit A, submit B,
B resolving successfully and then stale A resolving with a domain
`error` field, the stale response's error text is surfaced as the
visible message (because `onSubmit` checks `res.error` before the
token comparison), while B's committed route/stops/summary remain
displayed.  The claim demands a fully silent discard. -/
theorem stale_domain_error_surfaced :
    finalC2.errorMsg = some "No route found" ∧
    finalC2.route = [(JVal.num 2, JVal.num 1), (JVal.num 4, JVal.num 3)] ∧
    finalC2.stops = [] ∧
    finalC2.summary = none :=
  ⟨rfl, rfl, rfl, rfl⟩

/-- C3 (code evaluated at the failing input): after submit A and
submit B — which aborts A's controller — the transport's abort
rejection for A lands in `onSubmit`'s catch block, which has no
AbortError guard and no token check, so the cancellation error is
reported to the user.  The claim demands it never be reported. -/
theorem aborted_error_reported :
    finalC3.abortedIds = [1] ∧
    finalC3.errorMsg = some "The operation was aborted" :=
  ⟨rfl, rfl⟩

end TrucksFront
